import Mathlib

/-!
Verification development for the Geero neural-network toolkit.

The repository layers a stax-style combinator system over a host
array/autodiff library.  The files under verification are the two debug
decorators (`serial_decorator.py`, `identity_decorator.py`), the
categorical cross-entropy loss, and the two training scripts
(`mnist_aug.py`, `resnet.py`).  The combinator engine itself (`serial`,
`parallel`, `FanOut`, `FanInSum`, `shape_dependent`, the layer
constructors and `model_decorator`) is not part of the provided sources;
where a statement depends on it, it is modelled from the specification's
description: an init function maps a random seed and an input shape to a
triple (output shape, parameter set, auxiliary state), and an apply
function maps (parameters, state, input tensor) to (output tensor,
updated state).
-/

namespace Geero

/-- Tensor shapes are tuples of (possibly negative, e.g. `-1`) integer
dimensions, exactly as the training scripts pass them
(`net_init(rng, (-1, 28, 28, 1))`). -/
abbrev Dims := List Int

/-- Modelled from the spec: the shape data flowing through the combinator
engine.  A plain layer sees a single shape tuple; `FanOut`/`parallel`
produce and consume tuples of shapes. -/
inductive ShapeT where
  | single (dims : Dims)
  | tuple (shapes : List ShapeT)

/-- Modelled from the spec: parameter / auxiliary-state pytrees.  Array
leaves are abstracted to their creating seed and their shape; the numeric
contents belong to the host library, which the spec scopes out. -/
inductive PTree where
  | unit
  | leaf (seed : Nat) (dims : Dims)
  | node (ts : List PTree)

/-- Convolution / pooling padding modes appearing in the scripts. -/
inductive Padding where
  | VALID
  | SAME

/-- Modelled from the spec: one spatial output dimension of a
convolution or pooling window, using the host library's documented
`SAME` / `VALID` arithmetic. -/
def convDim (pad : Padding) (ks stride size : Int) : Int :=
  match pad with
  | .SAME => (size + stride - 1) / stride
  | .VALID => (size - ks) / stride + 1

/-- Parse an NHWC shape tuple (exactly four dimensions). -/
def parse4 : Dims → Option (Int × Int × Int × Int)
  | [n, h, w, c] => some (n, h, w, c)
  | _ => none

/-- Product of trailing dimensions, as `Flatten` computes it
(`reduce(mul, input_shape[1:], 1)`). -/
def prodDims (ds : Dims) : Int := ds.foldl (fun a d => a * d) 1

/-- Modelled from the spec: the layer language the training scripts
build their networks in.  `shapeDependent` carries the deferred
constructor (`make_main` in `resnet.py`), which may fail on a shape it
cannot index into. -/
inductive Layer where
  | Conv (outChan kh kw s1 s2 : Int) (pad : Padding)
  | BatchNorm
  | Relu
  | Elu
  | LogSoftmax
  | Flatten
  | Dense (outDim : Int)
  | AvgPool (wh ww s1 s2 : Int) (pad : Padding)
  | MaxPool (wh ww s1 s2 : Int) (pad : Padding)
  | Identity
  | serial (layers : List Layer)
  | parallel (layers : List Layer)
  | FanOut (n : Nat)
  | FanInSum
  | shapeDependent (make : ShapeT → Option Layer)

/-- Modelled from the spec: shape inference, i.e. the output-shape
component of every layer's init function, which propagates an input
shape through a network definition.  `fuel` bounds the recursion depth
(`shape_dependent` produces a layer from a shape, so the recursion is
not structural); every claim instantiates it generously. -/
def initShape : Nat → Layer → ShapeT → Option ShapeT
  | 0, _, _ => none
  | _ + 1, .Conv oc kh kw s1 s2 pad, .single ds =>
      (parse4 ds).map fun t =>
        .single [t.1, convDim pad kh s1 t.2.1, convDim pad kw s2 t.2.2.1, oc]
  | _ + 1, .Conv _ _ _ _ _ _, _ => none
  | _ + 1, .BatchNorm, .single ds => some (.single ds)
  | _ + 1, .BatchNorm, _ => none
  | _ + 1, .Relu, s => some s
  | _ + 1, .Elu, s => some s
  | _ + 1, .LogSoftmax, s => some s
  | _ + 1, .Flatten, .single (n :: rest) => some (.single [n, prodDims rest])
  | _ + 1, .Flatten, _ => none
  | _ + 1, .Dense o, .single ds => some (.single (ds.dropLast ++ [o]))
  | _ + 1, .Dense _, _ => none
  | _ + 1, .AvgPool wh ww s1 s2 pad, .single ds =>
      (parse4 ds).map fun t =>
        .single [t.1, convDim pad wh s1 t.2.1, convDim pad ww s2 t.2.2.1, t.2.2.2]
  | _ + 1, .AvgPool _ _ _ _ _, _ => none
  | _ + 1, .MaxPool wh ww s1 s2 pad, .single ds =>
      (parse4 ds).map fun t =>
        .single [t.1, convDim pad wh s1 t.2.1, convDim pad ww s2 t.2.2.1, t.2.2.2]
  | _ + 1, .MaxPool _ _ _ _ _, _ => none
  | _ + 1, .Identity, s => some s
  | _ + 1, .serial [], s => some s
  | fuel + 1, .serial (l :: ls), s =>
      (initShape fuel l s).bind fun s1 => initShape fuel (.serial ls) s1
  | _ + 1, .parallel [], .tuple [] => some (.tuple [])
  | fuel + 1, .parallel (l :: ls), .tuple (s :: ss) =>
      (initShape fuel l s).bind fun t =>
        (initShape fuel (.parallel ls) (.tuple ss)).bind fun ts =>
          match ts with
          | .tuple ts => some (.tuple (t :: ts))
          | _ => none
  | _ + 1, .parallel _, _ => none
  | _ + 1, .FanOut n, s => some (.tuple (List.replicate n s))
  | _ + 1, .FanInSum, .tuple (t :: _) => some t
  | _ + 1, .FanInSum, _ => none
  | fuel + 1, .shapeDependent make, s =>
      (make s).bind fun l => initShape fuel l s

/-- Prepend one layer's subtree to a collected pytree of per-layer
subtrees (how `serial` and `parallel` aggregate parameters and states). -/
def consTree (t : PTree) : PTree → PTree
  | .node ts => .node (t :: ts)
  | u => .node [t, u]

/-- Modelled from the spec: splitting a random seed, as `serial` and
`parallel` split their rng before handing it to each sublayer. -/
def rsplit (r : Nat) : Nat × Nat := (2 * r + 1, 2 * r + 2)

/-- Modelled from the spec: the full init function of a layer, mapping a
random seed and an input shape to the triple (output shape, parameter
set, auxiliary state).  Parameter leaves record the seed they were drawn
from and the shape they were allocated with; their numeric contents are
the host library's business. -/
def initFull : Nat → Layer → Nat → ShapeT → Option (ShapeT × PTree × PTree)
  | 0, _, _, _ => none
  | _ + 1, .Conv oc kh kw s1 s2 pad, r, .single ds =>
      (parse4 ds).map fun t =>
        (.single [t.1, convDim pad kh s1 t.2.1, convDim pad kw s2 t.2.2.1, oc],
         .node [.leaf r [kh, kw, t.2.2.2, oc], .leaf r [oc]],
         .unit)
  | _ + 1, .Conv _ _ _ _ _ _, _, _ => none
  | _ + 1, .BatchNorm, r, .single ds =>
      some (.single ds, .node [.leaf r ds, .leaf r ds],
            .node [.leaf 0 ds, .leaf 0 ds])
  | _ + 1, .BatchNorm, _, _ => none
  | _ + 1, .Relu, _, s => some (s, .unit, .unit)
  | _ + 1, .Elu, _, s => some (s, .unit, .unit)
  | _ + 1, .LogSoftmax, _, s => some (s, .unit, .unit)
  | _ + 1, .Flatten, _, .single (n :: rest) =>
      some (.single [n, prodDims rest], .unit, .unit)
  | _ + 1, .Flatten, _, _ => none
  | _ + 1, .Dense o, r, .single ds =>
      some (.single (ds.dropLast ++ [o]),
            .node [.leaf r [ds.getLastD 0, o], .leaf r [o]],
            .unit)
  | _ + 1, .Dense _, _, _ => none
  | _ + 1, .AvgPool wh ww s1 s2 pad, _, .single ds =>
      (parse4 ds).map fun t =>
        (.single [t.1, convDim pad wh s1 t.2.1, convDim pad ww s2 t.2.2.1, t.2.2.2],
         .unit, .unit)
  | _ + 1, .AvgPool _ _ _ _ _, _, _ => none
  | _ + 1, .MaxPool wh ww s1 s2 pad, _, .single ds =>
      (parse4 ds).map fun t =>
        (.single [t.1, convDim pad wh s1 t.2.1, convDim pad ww s2 t.2.2.1, t.2.2.2],
         .unit, .unit)
  | _ + 1, .MaxPool _ _ _ _ _, _, _ => none
  | _ + 1, .Identity, _, s => some (s, .unit, .unit)
  | _ + 1, .serial [], _, s => some (s, .node [], .node [])
  | fuel + 1, .serial (l :: ls), r, s =>
      (initFull fuel l (rsplit r).2 s).bind fun t1 =>
        (initFull fuel (.serial ls) (rsplit r).1 t1.1).bind fun t2 =>
          some (t2.1, consTree t1.2.1 t2.2.1, consTree t1.2.2 t2.2.2)
  | _ + 1, .parallel [], _, .tuple [] => some (.tuple [], .node [], .node [])
  | fuel + 1, .parallel (l :: ls), r, .tuple (s :: ss) =>
      (initFull fuel l (rsplit r).2 s).bind fun t1 =>
        (initFull fuel (.parallel ls) (rsplit r).1 (.tuple ss)).bind fun t2 =>
          match t2.1 with
          | .tuple ts => some (.tuple (t1.1 :: ts),
                               consTree t1.2.1 t2.2.1, consTree t1.2.2 t2.2.2)
          | _ => none
  | _ + 1, .parallel _, _, _ => none
  | _ + 1, .FanOut n, _, s => some (.tuple (List.replicate n s), .unit, .unit)
  | _ + 1, .FanInSum, _, .tuple (t :: _) => some (t, .unit, .unit)
  | _ + 1, .FanInSum, _, _ => none
  | fuel + 1, .shapeDependent make, r, s =>
      (make s).bind fun l => initFull fuel l r s

/-- The output-shape component of the full init function is exactly the
shape-inference function: it never depends on the random seed. -/
theorem initFull_shape :
    ∀ (fuel : Nat) (l : Layer) (r : Nat) (s : ShapeT),
      (initFull fuel l r s).map (fun t => t.1) = initShape fuel l s := by
  intro fuel
  induction fuel with
  | zero => intro l r s; rfl
  | succ f ih =>
    intro l r s
    cases l with
    | Conv oc kh kw s1 s2 pad =>
      cases s with
      | single ds => cases hp : parse4 ds <;> simp [initShape, initFull, hp]
      | tuple ss => rfl
    | BatchNorm => cases s <;> rfl
    | Relu => rfl
    | Elu => rfl
    | LogSoftmax => rfl
    | Flatten =>
      cases s with
      | single ds => cases ds <;> rfl
      | tuple ss => rfl
    | Dense o => cases s <;> rfl
    | AvgPool wh ww s1 s2 pad =>
      cases s with
      | single ds => cases hp : parse4 ds <;> simp [initShape, initFull, hp]
      | tuple ss => rfl
    | MaxPool wh ww s1 s2 pad =>
      cases s with
      | single ds => cases hp : parse4 ds <;> simp [initShape, initFull, hp]
      | tuple ss => rfl
    | Identity => rfl
    | serial ls =>
      cases ls with
      | nil => rfl
      | cons l ls =>
        simp only [initShape, initFull]
        cases h1 : initFull f l (rsplit r).2 s with
        | none =>
          have := ih l (rsplit r).2 s
          rw [h1] at this
          simp [← this]
        | some t1 =>
          have := ih l (rsplit r).2 s
          rw [h1] at this
          simp only [Option.map_some'] at this
          rw [← this]
          simp only [Option.some_bind]
          cases h2 : initFull f (.serial ls) (rsplit r).1 t1.1 with
          | none =>
            have h2s := ih (.serial ls) (rsplit r).1 t1.1
            rw [h2] at h2s
            simp [← h2s]
          | some t2 =>
            have h2s := ih (.serial ls) (rsplit r).1 t1.1
            rw [h2] at h2s
            simp only [Option.map_some'] at h2s
            simp [← h2s, h2]
    | parallel ls =>
      cases ls with
      | nil => cases s with
        | single ds => rfl
        | tuple ss => cases ss <;> rfl
      | cons l ls =>
        cases s with
        | single ds => rfl
        | tuple ss =>
          cases ss with
          | nil => rfl
          | cons s0 ss =>
            simp only [initShape, initFull]
            cases h1 : initFull f l (rsplit r).2 s0 with
            | none =>
              have := ih l (rsplit r).2 s0
              rw [h1] at this
              simp [← this]
            | some t1 =>
              have := ih l (rsplit r).2 s0
              rw [h1] at this
              simp only [Option.map_some'] at this
              rw [← this]
              simp only [Option.some_bind]
              cases h2 : initFull f (.parallel ls) (rsplit r).1 (.tuple ss) with
              | none =>
                have h2s := ih (.parallel ls) (rsplit r).1 (.tuple ss)
                rw [h2] at h2s
                simp [← h2s]
              | some t2 =>
                have h2s := ih (.parallel ls) (rsplit r).1 (.tuple ss)
                rw [h2] at h2s
                simp only [Option.map_some'] at h2s
                rw [← h2s]
                simp only [Option.some_bind]
                cases t2.1 <;> simp
    | FanOut n => rfl
    | FanInSum =>
      cases s with
      | single ds => rfl
      | tuple ss => cases ss <;> rfl
    | shapeDependent make =>
      simp only [initShape, initFull]
      cases make s with
      | none => rfl
      | some l => simpa using ih l r s

/-- If shape inference succeeds, the full init function yields a triple
with that output shape, whatever the seed. -/
theorem initFull_exists (fuel : Nat) (l : Layer) (r : Nat) (s s' : ShapeT)
    (h : initShape fuel l s = some s') :
    ∃ p st, initFull fuel l r s = some (s', p, st) := by
  have hs := initFull_shape fuel l r s
  rw [h] at hs
  cases hf : initFull fuel l r s with
  | none => rw [hf] at hs; simp at hs
  | some t =>
    rw [hf] at hs
    simp only [Option.map_some', Option.some.injEq] at hs
    exact ⟨t.2.1, t.2.2, by subst hs; rfl⟩


/-! ### The networks defined by the training scripts

These are direct transcriptions of `resnet.py` and `mnist_aug.py`.
`Conv(out, (kh, kw))` defaults to strides `(1, 1)` and `VALID` padding;
pooling layers default to strides `(1, 1)` and `VALID` padding; both
defaults are the host library's, which the scripts rely on. -/

/-- The main branch of `ConvBlock` in `resnet.py`. -/
def ConvBlockMain (ks f1 f2 f3 s1 s2 : Int) : Layer :=
  .serial [
    .Conv f1 1 1 s1 s2 .VALID,
    .BatchNorm,
    .Relu,
    .Conv f2 ks ks 1 1 .SAME,
    .BatchNorm,
    .Relu,
    .Conv f3 1 1 1 1 .VALID,
    .BatchNorm]

/-- The shortcut branch of `ConvBlock` in `resnet.py`. -/
def ConvBlockShortcut (f3 s1 s2 : Int) : Layer :=
  .serial [.Conv f3 1 1 s1 s2 .VALID, .BatchNorm]

/-- `ConvBlock` from `resnet.py` (strides default `(2, 2)`). -/
def ConvBlock (ks : Int) (filters : Int × Int × Int)
    (strides : Int × Int := (2, 2)) : Layer :=
  .serial [
    .FanOut 2,
    .parallel [ConvBlockMain ks filters.1 filters.2.1 filters.2.2 strides.1 strides.2,
               ConvBlockShortcut filters.2.2 strides.1 strides.2],
    .FanInSum,
    .Relu]

/-- `make_main` from `resnet.py`: builds the main branch of an identity
block once the input shape is known; the final convolution's output
channel count is `input_shape[3]`.  Indexing fails on shapes with fewer
than four dimensions, as in Python. -/
def make_main (ks f1 f2 : Int) (input_shape : ShapeT) : Option Layer :=
  match input_shape with
  | .single (_ :: _ :: _ :: c :: _) =>
      some (.serial [
        .Conv f1 1 1 1 1 .VALID,
        .BatchNorm,
        .Relu,
        .Conv f2 ks ks 1 1 .SAME,
        .BatchNorm,
        .Relu,
        .Conv c 1 1 1 1 .VALID,
        .BatchNorm])
  | _ => none

/-- `IdentityBlock` from `resnet.py`. -/
def IdentityBlock (ks : Int) (filters : Int × Int) : Layer :=
  .serial [
    .FanOut 2,
    .parallel [.shapeDependent (make_main ks filters.1 filters.2), .Identity],
    .FanInSum,
    .Relu]

/-- `ResNet` from `resnet.py`. -/
def ResNet (num_classes : Int) : Layer :=
  .serial [
    .Conv 64 3 3 1 1 .SAME,
    .BatchNorm, .Relu,
    IdentityBlock 3 (64, 64),
    IdentityBlock 3 (64, 64),
    ConvBlock 3 (64, 64, 128),
    IdentityBlock 3 (128, 128),
    IdentityBlock 3 (128, 128),
    ConvBlock 3 (128, 128, 256),
    IdentityBlock 3 (256, 256),
    IdentityBlock 3 (256, 256),
    .AvgPool 8 8 1 1 .VALID,
    .Flatten,
    .Dense num_classes,
    .LogSoftmax]

/-- The convolutional network `mnist_aug.py` hands to `model_decorator`. -/
def mnistNet : Layer :=
  .serial [
    .Conv 16 5 5 1 1 .SAME, .Elu,
    .MaxPool 2 2 2 2 .VALID,
    .Conv 32 3 3 1 1 .SAME, .Elu,
    .MaxPool 2 2 2 2 .VALID,
    .Flatten,
    .Dense 84, .Elu,
    .Dense 10, .LogSoftmax]

/-- The first six layers of the serial network `make_main` builds
(everything before the final channel-matching convolution). -/
def makeMainFront (ks f1 f2 : Int) : List Layer :=
  [.Conv f1 1 1 1 1 .VALID,
   .BatchNorm,
   .Relu,
   .Conv f2 ks ks 1 1 .SAME,
   .BatchNorm,
   .Relu]

/-- The layers of `ResNet` preceding its final classifier head. -/
def resNetFront : List Layer :=
  [.Conv 64 3 3 1 1 .SAME,
   .BatchNorm, .Relu,
   IdentityBlock 3 (64, 64),
   IdentityBlock 3 (64, 64),
   ConvBlock 3 (64, 64, 128),
   IdentityBlock 3 (128, 128),
   IdentityBlock 3 (128, 128),
   ConvBlock 3 (128, 128, 256),
   IdentityBlock 3 (256, 256),
   IdentityBlock 3 (256, 256),
   .AvgPool 8 8 1 1 .VALID,
   .Flatten]

/-- Modelled from the spec: the `LogSoftmax` activation applied to one
row of dense-layer outputs: `x_i - log (sum_j exp x_j)`.  Real-valued,
hence noncomputable; its concrete witness is settled by `simp`. -/
noncomputable def logsoftmax (xs : List ℝ) : List ℝ :=
  xs.map fun x => x - Real.log ((xs.map Real.exp).sum)

end Geero

namespace Geero

/-- C3: `IdentityBlock` defers construction of its main path:
`make_main` receives exactly the input shape supplied at init time, and
on an input of channel dimension `c` the main path it builds ends with a
convolution producing `c` channels followed by `BatchNorm`; both the
main branch and the `Identity` branch feeding `FanInSum` then carry the
full input shape, in particular `c` channels. -/
theorem C3_identity_block_defers_and_matches_channels
    (ks f1 f2 b h w c : Int) :
    (∀ (make : ShapeT → Option Layer) (fuel : Nat) (s : ShapeT),
        initShape (fuel + 1) (.shapeDependent make) s
          = (make s).bind fun l => initShape fuel l s)
    ∧ make_main ks f1 f2 (.single [b, h, w, c])
        = some (.serial (makeMainFront ks f1 f2
            ++ [.Conv c 1 1 1 1 .VALID, .BatchNorm]))
    ∧ initShape 10 (.shapeDependent (make_main ks f1 f2))
        (.single [b, h, w, c]) = some (.single [b, h, w, c])
    ∧ initShape 10 .Identity (.single [b, h, w, c])
        = some (.single [b, h, w, c])
    ∧ initShape 16 (IdentityBlock ks (f1, f2)) (.single [b, h, w, c])
        = some (.single [b, h, w, c]) := by
  have eh : ((((h - 1) / 1 + 1 + 1 - 1) / 1 - 1) / 1 + 1) = h := by omega
  have ew : ((((w - 1) / 1 + 1 + 1 - 1) / 1 - 1) / 1 + 1) = w := by omega
  refine ⟨fun make fuel s => rfl, rfl, ?_, rfl, ?_⟩
  · calc initShape 10 (.shapeDependent (make_main ks f1 f2))
          (.single [b, h, w, c])
        = some (.single [b, ((((h - 1) / 1 + 1 + 1 - 1) / 1 - 1) / 1 + 1),
                            ((((w - 1) / 1 + 1 + 1 - 1) / 1 - 1) / 1 + 1), c]) := rfl
      _ = some (.single [b, h, w, c]) := by rw [eh, ew]
  · calc initShape 16 (IdentityBlock ks (f1, f2)) (.single [b, h, w, c])
        = some (.single [b, ((((h - 1) / 1 + 1 + 1 - 1) / 1 - 1) / 1 + 1),
                            ((((w - 1) / 1 + 1 + 1 - 1) / 1 - 1) / 1 + 1), c]) := rfl
      _ = some (.single [b, h, w, c]) := by rw [eh, ew]

/-- C4: `ConvBlock(ks, (f1, f2, f3), strides)` is the serial composition
of `FanOut(2)`, a parallel pair of the main path and the shortcut path,
`FanInSum` and `Relu`; on any NHWC input both branches entering
`FanInSum` produce the same shape, with exactly `f3` channels. -/
theorem C4_conv_block_structure_and_channels
    (ks f1 f2 f3 s1 s2 b h w c : Int) :
    ConvBlock ks (f1, f2, f3) (s1, s2)
      = .serial [.FanOut 2,
                 .parallel [ConvBlockMain ks f1 f2 f3 s1 s2,
                            ConvBlockShortcut f3 s1 s2],
                 .FanInSum, .Relu]
    ∧ initShape 10 (ConvBlockMain ks f1 f2 f3 s1 s2) (.single [b, h, w, c])
        = some (.single [b, (h - 1) / s1 + 1, (w - 1) / s2 + 1, f3])
    ∧ initShape 10 (ConvBlockShortcut f3 s1 s2) (.single [b, h, w, c])
        = some (.single [b, (h - 1) / s1 + 1, (w - 1) / s2 + 1, f3])
    ∧ initShape 16 (ConvBlock ks (f1, f2, f3) (s1, s2)) (.single [b, h, w, c])
        = some (.single [b, (h - 1) / s1 + 1, (w - 1) / s2 + 1, f3]) := by
  have eh : ((((h - 1) / s1 + 1 + 1 - 1) / 1 - 1) / 1 + 1) = (h - 1) / s1 + 1 := by
    omega
  have ew : ((((w - 1) / s2 + 1 + 1 - 1) / 1 - 1) / 1 + 1) = (w - 1) / s2 + 1 := by
    omega
  refine ⟨rfl, ?_, rfl, ?_⟩
  · calc initShape 10 (ConvBlockMain ks f1 f2 f3 s1 s2) (.single [b, h, w, c])
        = some (.single [b, ((((h - 1) / s1 + 1 + 1 - 1) / 1 - 1) / 1 + 1),
                            ((((w - 1) / s2 + 1 + 1 - 1) / 1 - 1) / 1 + 1), f3]) := rfl
      _ = some (.single [b, (h - 1) / s1 + 1, (w - 1) / s2 + 1, f3]) := by rw [eh, ew]
  · calc initShape 16 (ConvBlock ks (f1, f2, f3) (s1, s2)) (.single [b, h, w, c])
        = some (.single [b, ((((h - 1) / s1 + 1 + 1 - 1) / 1 - 1) / 1 + 1),
                            ((((w - 1) / s2 + 1 + 1 - 1) / 1 - 1) / 1 + 1), f3]) := rfl
      _ = some (.single [b, (h - 1) / s1 + 1, (w - 1) / s2 + 1, f3]) := by rw [eh, ew]

/-- C5: network definitions never require intermediate shapes: the
output-shape component of init is a function of the network definition
and the input shape alone (independent of the random seed), and for the
two example networks the output shape is fully determined by the single
input shape handed to `net_init`; parameters and state are only produced
by init, alongside the propagated shape. -/
theorem C5_output_shape_determined_by_input_shape :
    (∀ (fuel : Nat) (l : Layer) (r₁ r₂ : Nat) (s : ShapeT),
        (initFull fuel l r₁ s).map (fun t => t.1)
          = (initFull fuel l r₂ s).map (fun t => t.1))
    ∧ (∀ r : Nat, ∃ p st,
        initFull 30 mnistNet r (.single [-1, 28, 28, 1])
          = some (.single [-1, 10], p, st))
    ∧ (∀ (r : Nat) (b : Int), ∃ p st,
        initFull 64 (ResNet 10) r (.single [b, 32, 32, 3])
          = some (.single [b, 10], p, st)) := by
  refine ⟨fun fuel l r₁ r₂ s => ?_, fun r => ?_, fun r b => ?_⟩
  · rw [initFull_shape, initFull_shape]
  · exact initFull_exists 30 mnistNet r _ _ rfl
  · exact initFull_exists 64 (ResNet 10) r _ _ rfl

/-- C9: the CIFAR-10 `ResNet(num_classes)` network ends with
`Dense(num_classes)` followed by `LogSoftmax`; on a batch of `b` images
of shape 32×32×3 its output shape is `(b, num_classes)`, and the
log-softmax of a (nonempty) row of dense outputs has exponentials
summing to 1. -/
theorem C9_resnet_head_and_logsoftmax (n : Int) :
    ResNet n = .serial (resNetFront ++ [.Dense n, .LogSoftmax])
    ∧ (∀ b : Int, initShape 64 (ResNet n) (.single [b, 32, 32, 3])
        = some (.single [b, n]))
    ∧ (∀ xs : List ℝ, xs ≠ [] → ((logsoftmax xs).map Real.exp).sum = 1) := by
  refine ⟨rfl, fun b => rfl, fun xs hxs => ?_⟩
  have hS : 0 < (xs.map Real.exp).sum := by
    refine List.sum_pos _ (fun x hx => ?_) (by simpa using hxs)
    obtain ⟨y, -, rfl⟩ := List.mem_map.1 hx
    exact Real.exp_pos y
  have hmap : (logsoftmax xs).map Real.exp
      = xs.map fun x => Real.exp x * ((xs.map Real.exp).sum)⁻¹ := by
    simp only [logsoftmax, List.map_map]
    refine List.map_congr_left fun x _ => ?_
    simp [Real.exp_sub, Real.exp_log hS, div_eq_mul_inv]
  rw [hmap, List.sum_map_mul_right, mul_inv_cancel₀ (ne_of_gt hS)]

/-- Witness for C9 at concrete inputs. -/
theorem C9_resnet_head_and_logsoftmax_witness :
    ([(0 : ℝ)] ≠ []) ∧ ((logsoftmax [(0 : ℝ)]).map Real.exp).sum = 1 :=
  ⟨by simp, (C9_resnet_head_and_logsoftmax 10).2.2 [(0 : ℝ)] (by simp)⟩

end Geero

namespace Geero

/-! ### `categorical_cross_entropy` (`nn/losses/categorical_cross_entropy.py`)

Two-dimensional arrays are lists of rows of rationals.  `jnp.argmax`,
`jnp.take_along_axis` and `jnp.mean` are host-library primitives,
modelled from their documented semantics (first maximal index; index
clipping; mean over all elements). -/

/-- `jnp.argmax` over one row: the index of the first maximal entry. -/
def argmax_row : List ℚ → Nat
  | [] => 0
  | [_] => 0
  | x :: y :: rest =>
      if x < (y :: rest).getD (argmax_row (y :: rest)) 0
      then argmax_row (y :: rest) + 1
      else 0

/-- `j` is the index of the first maximal entry of `row`. -/
def IsFirstArgmax (row : List ℚ) (j : Nat) : Prop :=
  j < row.length
    ∧ (∀ k, k < row.length → row.getD k 0 ≤ row.getD j 0)
    ∧ (∀ k, k < j → row.getD k 0 < row.getD j 0)

instance (row : List ℚ) (j : Nat) : Decidable (IsFirstArgmax row j) := by
  unfold IsFirstArgmax
  exact instDecidableAnd

/-- `argmax_row` returns the index of the first maximal entry. -/
theorem argmax_row_spec : ∀ row : List ℚ, row ≠ [] → IsFirstArgmax row (argmax_row row) := by
  intro row
  induction row with
  | nil => intro h; exact absurd rfl h
  | cons x t ih =>
    intro _
    cases t with
    | nil =>
      refine ⟨by simp [argmax_row], fun k hk => ?_, fun k hk => by simp [argmax_row] at hk⟩
      have hk1 : k = 0 := by simpa using hk
      subst hk1
      simp [argmax_row]
    | cons y rest =>
      obtain ⟨hj, hmax, hfirst⟩ := ih (by simp)
      by_cases hc : x < (y :: rest).getD (argmax_row (y :: rest)) 0
      · have harg : argmax_row (x :: y :: rest) = argmax_row (y :: rest) + 1 := by
          rw [argmax_row, if_pos hc]
        refine ⟨?_, fun k hk => ?_, fun k hk => ?_⟩
        · rw [harg]; simpa using Nat.succ_lt_succ hj
        · rw [harg]
          cases k with
          | zero => simpa using le_of_lt hc
          | succ k =>
            simp only [List.getD_cons_succ]
            exact hmax k (by simpa using hk)
        · rw [harg] at hk ⊢
          cases k with
          | zero => simpa using hc
          | succ k =>
            simp only [List.getD_cons_succ]
            exact hfirst k (Nat.lt_of_succ_lt_succ hk)
      · have harg : argmax_row (x :: y :: rest) = 0 := by
          rw [argmax_row, if_neg hc]
        refine ⟨by simp [harg], fun k hk => ?_, fun k hk => by omega⟩
        rw [harg]
        cases k with
        | zero => simp
        | succ k =>
          simp only [List.getD_cons_succ, List.getD_cons_zero]
          exact le_trans (hmax k (by simpa using hk)) (not_lt.1 hc)

/-- `jnp.take_along_axis(predictions, expand_dims(idx, 1), axis=1)`:
an n×1 matrix whose row `i` is the entry of `predictions[i]` at the
(clipped) index `idx[i]`. -/
def take_along_axis1 (predictions : List (List ℚ)) (idx : List Nat) : List (List ℚ) :=
  (predictions.zip idx).map fun pr => [pr.1.getD (min pr.2 (pr.1.length - 1)) 0]

/-- `jnp.mean` of a 2-D array: the sum of all entries divided by the
number of entries. -/
def jnpMean (m : List (List ℚ)) : ℚ :=
  (m.map List.sum).sum / ((m.map List.length).sum : ℚ)

/-- `categorical_cross_entropy` from
`nn/losses/categorical_cross_entropy.py`. -/
def categorical_cross_entropy (predictions targets : List (List ℚ)) : ℚ :=
  -(jnpMean (take_along_axis1 predictions (targets.map argmax_row)))

/-- Sum of row lengths of an n×1 matrix built by singleton rows. -/
theorem sum_map_one_length (l : List α) : (l.map fun _ => 1).sum = l.length := by
  induction l with
  | nil => rfl
  | cons a l ih => simp [ih, Nat.add_comm]

/-- C8: for matching 2-D predictions and targets with `n` rows,
`categorical_cross_entropy` equals the negative mean over rows `i` of
`predictions[i, t_i]`, where `t_i` is the index of the first maximal
entry of `targets[i]`. -/
theorem C8_cce_is_negative_mean_at_argmax
    (preds targets : List (List ℚ))
    (hlen : targets.length = preds.length)
    (hidx : ∀ pr ∈ preds.zip targets, argmax_row pr.2 < pr.1.length) :
    (∀ t ∈ targets, t ≠ [] → IsFirstArgmax t (argmax_row t))
    ∧ categorical_cross_entropy preds targets
        = -((((preds.zip targets).map fun pr => pr.1.getD (argmax_row pr.2) 0).sum)
             / (preds.length : ℚ)) := by
  refine ⟨fun t _ ht => argmax_row_spec t ht, ?_⟩
  have hz : preds.zip (targets.map argmax_row)
      = (preds.zip targets).map (Prod.map id argmax_row) := by
    rw [List.zip_map_right]
  have hrows : take_along_axis1 preds (targets.map argmax_row)
      = (preds.zip targets).map fun pr => [pr.1.getD (argmax_row pr.2) 0] := by
    unfold take_along_axis1
    rw [hz, List.map_map]
    refine List.map_congr_left fun pr hpr => ?_
    have h := hidx pr hpr
    have : min (argmax_row pr.2) (pr.1.length - 1) = argmax_row pr.2 := by omega
    simp [this]
  unfold categorical_cross_entropy jnpMean
  rw [hrows]
  have hnum : (((preds.zip targets).map fun pr =>
      [pr.1.getD (argmax_row pr.2) 0]).map List.sum).sum
      = ((preds.zip targets).map fun pr => pr.1.getD (argmax_row pr.2) 0).sum := by
    rw [List.map_map]
    congr 1
    exact List.map_congr_left fun pr _ => by simp
  have hden : ((((preds.zip targets).map fun pr =>
      [pr.1.getD (argmax_row pr.2) 0]).map List.length).sum : ℚ)
      = (preds.length : ℚ) := by
    rw [List.map_map]
    have h1 : ((preds.zip targets).map
        (List.length ∘ fun pr => [pr.1.getD (argmax_row pr.2) 0]))
        = (preds.zip targets).map fun _ => 1 := rfl
    rw [h1, sum_map_one_length, List.length_zip, hlen, min_self]
  rw [hnum, hden]

/-- Witness for C8 at a concrete pair of 2×2 matrices. -/
theorem C8_cce_witness :
    ([[(0 : ℚ), 1], [1, 0]].length = [[(1 : ℚ), 2], [3, 4]].length)
    ∧ (∀ pr ∈ [[(1 : ℚ), 2], [3, 4]].zip [[(0 : ℚ), 1], [1, 0]],
        argmax_row pr.2 < pr.1.length)
    ∧ categorical_cross_entropy [[(1 : ℚ), 2], [3, 4]] [[(0 : ℚ), 1], [1, 0]]
        = -(((([[(1 : ℚ), 2], [3, 4]].zip [[(0 : ℚ), 1], [1, 0]]).map
              fun pr => pr.1.getD (argmax_row pr.2) 0).sum)
             / (([[(1 : ℚ), 2], [3, 4]].length : ℕ) : ℚ)) :=
  ⟨by decide, by decide,
   (C8_cce_is_negative_mean_at_argmax [[(1 : ℚ), 2], [3, 4]] [[(0 : ℚ), 1], [1, 0]]
      (by decide) (by decide)).2⟩

end Geero

namespace Geero

/-! ### Batching in the training loops (`mnist_aug.py` / `resnet.py`)

`num_complete_batches, leftover = divmod(num_train, batch_size)`,
`num_batches = num_complete_batches + bool(leftover)`, and one epoch of
`data_stream` yields the slices `perm[i * batch_size : (i+1) * batch_size]`
for `i in range(num_batches)` of a permutation `perm` of the training
indices. -/

/-- `num_complete_batches` from the `divmod` in `main`. -/
def num_complete_batches (num_train batch_size : Nat) : Nat :=
  num_train / batch_size

/-- `leftover` from the `divmod` in `main`. -/
def leftover (num_train batch_size : Nat) : Nat :=
  num_train % batch_size

/-- `num_batches = num_complete_batches + bool(leftover)`. -/
def num_batches (num_train batch_size : Nat) : Nat :=
  num_complete_batches num_train batch_size
    + (if leftover num_train batch_size ≠ 0 then 1 else 0)

/-- Python's `l[a:b]` for `0 ≤ a ≤ b` (out-of-range bounds clip). -/
def pySlice (l : List α) (a b : Nat) : List α :=
  (l.drop a).take (b - a)

/-- The concatenation of the index batches one epoch of `data_stream`
yields from the permutation `perm`. -/
def epochIndices (perm : List Nat) (batch_size k : Nat) : List Nat :=
  (List.range k).flatMap fun i =>
    pySlice perm (i * batch_size) ((i + 1) * batch_size)

/-- Slicing a list into `k` consecutive `batch_size`-sized pieces
recovers the list whenever `k` pieces suffice to cover it. -/
theorem epochIndices_eq_self (batch_size : Nat) :
    ∀ (k : Nat) (l : List Nat), l.length ≤ k * batch_size →
      epochIndices l batch_size k = l := by
  intro k
  induction k with
  | zero =>
    intro l hl
    have : l = [] := List.eq_nil_of_length_eq_zero (by omega)
    subst this
    rfl
  | succ k ih =>
    intro l hl
    have hsplit : epochIndices l batch_size (k + 1)
        = l.take batch_size ++ epochIndices (l.drop batch_size) batch_size k := by
      unfold epochIndices
      rw [List.range_succ_eq_map, List.flatMap_cons, List.flatMap_map]
      have h0 : pySlice l (0 * batch_size) ((0 + 1) * batch_size)
          = l.take batch_size := by
        simp [pySlice]
      rw [h0]
      congr 1
      refine List.flatMap_congr fun i _ => ?_
      unfold pySlice
      rw [List.drop_drop]
      have e1 : (i + 1) * batch_size - i * batch_size = batch_size := by
        simp [Nat.succ_mul]
      have e2 : (i.succ + 1) * batch_size - i.succ * batch_size = batch_size := by
        simp [Nat.succ_mul]
      have e3 : batch_size + i * batch_size = i.succ * batch_size := by
        simp [Nat.succ_mul, Nat.add_comm]
      rw [e1, e2, e3]
    have hlen2 : (l.drop batch_size).length ≤ k * batch_size := by
      have hs : (k + 1) * batch_size = k * batch_size + batch_size :=
        Nat.succ_mul k batch_size
      simp only [List.length_drop]
      omega
    rw [hsplit, ih (l.drop batch_size) hlen2, List.take_append_drop]

/-- Arithmetic of `num_batches`: it is the ceiling of
`num_train / batch_size` and `num_batches * batch_size` covers the
training set. -/
theorem batch_arith (nt bs : Nat) (hbs : 0 < bs) :
    nt / bs + (if nt % bs ≠ 0 then 1 else 0) = (nt + bs - 1) / bs
    ∧ nt ≤ (nt / bs + (if nt % bs ≠ 0 then 1 else 0)) * bs := by
  have hmod := Nat.div_add_mod nt bs
  have hrlt : nt % bs < bs := Nat.mod_lt _ hbs
  by_cases hr : nt % bs = 0
  · have hif : (if nt % bs ≠ 0 then 1 else 0) = 0 := by simp [hr]
    constructor
    · rw [hif]
      have e : nt + bs - 1 = bs * (nt / bs) + (bs - 1) := by omega
      rw [e, Nat.mul_add_div hbs,
          Nat.div_eq_of_lt (show bs - 1 < bs by omega)]
    · rw [hif, Nat.add_mul]
      have hc : nt / bs * bs = bs * (nt / bs) := Nat.mul_comm _ _
      omega
  · have hif : (if nt % bs ≠ 0 then 1 else 0) = 1 := by simp [hr]
    constructor
    · rw [hif]
      have hs : bs * (nt / bs + 1) = bs * (nt / bs) + bs := by ring
      have e : nt + bs - 1 = bs * (nt / bs + 1) + (nt % bs - 1) := by omega
      rw [e, Nat.mul_add_div hbs,
          Nat.div_eq_of_lt (show nt % bs - 1 < bs by omega)]
    · rw [hif, Nat.add_mul]
      have hc : nt / bs * bs = bs * (nt / bs) := Nat.mul_comm _ _
      omega

/-- C10: `num_complete_batches + bool(leftover)` is the ceiling of
`num_train / batch_size`, and the batch slices of one epoch of
`data_stream` concatenate back to the permutation of training indices,
so each training index is yielded exactly once per epoch. -/
theorem C10_batches_partition_each_epoch
    (num_train batch_size : Nat) (perm : List Nat)
    (h1 : 0 < num_train) (h2 : 0 < batch_size)
    (hp : perm.Perm (List.range num_train)) :
    num_batches num_train batch_size
      = (num_train + batch_size - 1) / batch_size
    ∧ epochIndices perm batch_size (num_batches num_train batch_size) = perm
    ∧ ∀ x, x < num_train →
        (epochIndices perm batch_size (num_batches num_train batch_size)).count x
          = 1 := by
  have harith := batch_arith num_train batch_size h2
  have hceil : num_batches num_train batch_size
      = (num_train + batch_size - 1) / batch_size := by
    unfold num_batches num_complete_batches leftover
    exact harith.1
  have hcover : perm.length ≤ num_batches num_train batch_size * batch_size := by
    have hlp : perm.length = num_train := by
      rw [hp.length_eq, List.length_range]
    unfold num_batches num_complete_batches leftover
    rw [hlp]
    exact harith.2
  have hpart := epochIndices_eq_self batch_size _ perm hcover
  refine ⟨hceil, hpart, fun x hx => ?_⟩
  rw [hpart, hp.count_eq x,
      List.count_eq_one_of_mem (List.nodup_range num_train) (List.mem_range.2 hx)]

/-- Witness for C10 with five training examples, batch size two, and a
concrete permutation. -/
theorem C10_batches_partition_each_epoch_witness :
    (0 < 5 ∧ 0 < 2 ∧ ([4, 2, 0, 1, 3] : List Nat).Perm (List.range 5))
    ∧ num_batches 5 2 = (5 + 2 - 1) / 2
    ∧ epochIndices [4, 2, 0, 1, 3] 2 (num_batches 5 2) = [4, 2, 0, 1, 3]
    ∧ ∀ x, x < 5 →
        (epochIndices [4, 2, 0, 1, 3] 2 (num_batches 5 2)).count x = 1 := by
  have h := C10_batches_partition_each_epoch 5 2 [4, 2, 0, 1, 3]
    (by decide) (by decide) (by decide)
  exact ⟨⟨by decide, by decide, by decide⟩, h.1, h.2.1, h.2.2⟩

end Geero

namespace Geero

/-! ### The debug decorators
(`nn/decorators/serial_decorator.py`, `nn/decorators/identity_decorator.py`)

The decorators receive the wrapped constructor's `(init, apply)` pair and,
when the logging level is `"INFO2"`, replace both functions by wrappers
that unpack the underlying return values, print, and repack.  Values
crossing these boundaries are Python tuples, so they are modelled as a
dynamic value type, with tuple unpacking and call-arity mismatches
raising errors exactly where Python raises them. -/

/-- Python values crossing the decorator boundary: seeds, shapes,
parameter/state pytrees, opaque tensors, and tuples. -/
inductive PyVal where
  | rng (seed : Nat)
  | shape (s : ShapeT)
  | tree (t : PTree)
  | tensor (id : Nat)
  | tup (vs : List PyVal)

/-- Errors raised at the decorator boundary: failed tuple unpacking
(`ValueError`) and calls with the wrong number of positional arguments
(`TypeError`). -/
inductive PyErr where
  | valueError
  | typeError

/-- A Python function of its positional arguments (keyword arguments
like `rng=` and `mode=` are not routed through the failing paths and are
elided). -/
abbrev PyFun := List PyVal → Except PyErr PyVal

/-- A layer: the `(init, apply)` pair every constructor returns. -/
structure PyLayer where
  init : PyFun
  apply : PyFun

/-- The `init_fun` wrapper built by `serial`'s `debug_decorator` at
`INFO2`: it calls the wrapped init with `(rng, input_shape)`, performs
the two-name unpacking `output_shape, params = init_fun_debug(...)`, and
returns `output_shape, params`. -/
def serialInitWrapper (init_fun_debug : PyFun) : PyFun := fun args =>
  match args with
  | [rng, input_shape] =>
      match init_fun_debug [rng, input_shape] with
      | .ok (.tup [output_shape, params]) => .ok (.tup [output_shape, params])
      | .ok (.tup _) => .error .valueError
      | .ok _ => .error .typeError
      | .error e => .error e
  | _ => .error .typeError

/-- The `apply_fun` wrapper built by `serial`'s `debug_decorator` at
`INFO2`: its signature is `(params, inputs, **kwargs)`, so it accepts
exactly two positional arguments and forwards them. -/
def serialApplyWrapper (apply_fun_debug : PyFun) : PyFun := fun args =>
  match args with
  | [params, inputs] => apply_fun_debug [params, inputs]
  | _ => .error .typeError

/-- The `init_fun` wrapper built by `Identity`'s `debug_decorator` at
`INFO2`: it performs the unpacking
`output_shape, (), state = init_fun_debug(rng, input_shape)` (the middle
pattern requires an empty tuple) and returns `output_shape, (), state`. -/
def identityInitWrapper (init_fun_debug : PyFun) : PyFun := fun args =>
  match args with
  | [rng, input_shape] =>
      match init_fun_debug [rng, input_shape] with
      | .ok (.tup [output_shape, .tup [], state]) =>
          .ok (.tup [output_shape, .tup [], state])
      | .ok (.tup [_, _, _]) => .error .valueError
      | .ok (.tup _) => .error .valueError
      | .ok _ => .error .typeError
      | .error e => .error e
  | _ => .error .typeError

/-- The `apply_fun` wrapper built by `Identity`'s `debug_decorator` at
`INFO2`: signature `(params, state, inputs, **kwargs)`; it performs
`result, state = apply_fun_debug(params, state, inputs)` and returns
`result, state`. -/
def identityApplyWrapper (apply_fun_debug : PyFun) : PyFun := fun args =>
  match args with
  | [params, state, inputs] =>
      match apply_fun_debug [params, state, inputs] with
      | .ok (.tup [result, state]) => .ok (.tup [result, state])
      | .ok (.tup _) => .error .valueError
      | .ok _ => .error .typeError
      | .error e => .error e
  | _ => .error .typeError

/-- The decorated `serial` constructor from `serial_decorator.py`: at
log level `"INFO2"` it wraps both functions of the layer the inner
constructor returns; at any other level it returns the inner result
unchanged. -/
def serialDecorated (level : String) (serial_debug : List PyVal → PyLayer) :
    List PyVal → PyLayer := fun args =>
  if level = "INFO2" then
    { init := serialInitWrapper (serial_debug args).init,
      apply := serialApplyWrapper (serial_debug args).apply }
  else serial_debug args

/-- The decorated `Identity` constructor from `identity_decorator.py`. -/
def identityDecorated (level : String) (identity_debug : List PyVal → PyLayer) :
    List PyVal → PyLayer := fun args =>
  if level = "INFO2" then
    { init := identityInitWrapper (identity_debug args).init,
      apply := identityApplyWrapper (identity_debug args).apply }
  else identity_debug args

/-- Modelled from the spec: the init function of the underlying `serial`
combinator (absent from `src/`), exposed at the Python boundary.  Called
with `(rng, input_shape)` it returns the triple
`(output_shape, params, state)` computed by `initFull`. -/
def specSerialInit (l : Layer) (fuel : Nat) : PyFun := fun args =>
  match args with
  | [.rng r, .shape s] =>
      match initFull fuel l r s with
      | some t => .ok (.tup [.shape t.1, .tree t.2.1, .tree t.2.2])
      | none => .error .valueError
  | _ => .error .typeError

/-- Modelled from the spec: the underlying `Identity` layer (absent from
`src/`): init returns `(input_shape, (), state)` with empty parameters,
apply returns `(inputs, state)` unchanged. -/
def specIdentityLayer : PyLayer :=
  { init := fun args =>
      match args with
      | [.rng _, .shape s] => .ok (.tup [.shape s, .tup [], .tree .unit])
      | _ => .error .typeError,
    apply := fun args =>
      match args with
      | [_, state, inputs] => .ok (.tup [inputs, state])
      | _ => .error .typeError }

/-- Modelled from the spec: `net_init` as produced by `model_decorator`
(absent from `src/`) over the MNIST network: the underlying serial init
at the Python boundary. -/
def netInitMnist : PyFun := specSerialInit mnistNet 30

/-- Modelled from the spec: `net_init` for the CIFAR-10 `ResNet(10)`. -/
def netInitResNet : PyFun := specSerialInit (ResNet 10) 64

/-- C1: init functions return (output shape, params, state) triples.
The `Identity` debug wrapper and `net_init` do; but the init wrapper
built by `serial`'s debug decorator unpacks the underlying triple into
the two names `output_shape, params`, which raises `ValueError`, so at
`INFO2` it never returns a triple — the claim holds everywhere except
for that wrapper, whose unpacking is a slip. -/
theorem C1_init_triples_and_serial_decorator_bug :
    (∀ (f : PyFun) (rng s os st : PyVal),
        f [rng, s] = .ok (.tup [os, .tup [], st]) →
          identityInitWrapper f [rng, s] = .ok (.tup [os, .tup [], st]))
    ∧ (∀ (f : PyFun) (rng s v1 v2 v3 : PyVal),
        f [rng, s] = .ok (.tup [v1, v2, v3]) →
          serialInitWrapper f [rng, s] = .error .valueError)
    ∧ (∀ r : Nat, ∃ p st,
        netInitMnist [.rng r, .shape (.single [-1, 28, 28, 1])]
          = .ok (.tup [.shape (.single [-1, 10]), .tree p, .tree st]))
    ∧ (∀ r : Nat, ∃ p st,
        netInitResNet [.rng r, .shape (.single [1, 32, 32, 3])]
          = .ok (.tup [.shape (.single [1, 10]), .tree p, .tree st])) := by
  refine ⟨fun f rng s os st h => ?_, fun f rng s v1 v2 v3 h => ?_,
          fun r => ?_, fun r => ?_⟩
  · simp [identityInitWrapper, h]
  · simp [serialInitWrapper, h]
  · obtain ⟨p, st, hps⟩ :=
      initFull_exists 30 mnistNet r (.single [-1, 28, 28, 1]) (.single [-1, 10]) rfl
    exact ⟨p, st, by simp [netInitMnist, specSerialInit, hps]⟩
  · obtain ⟨p, st, hps⟩ :=
      initFull_exists 64 (ResNet 10) r (.single [1, 32, 32, 3]) (.single [1, 10]) rfl
    exact ⟨p, st, by simp [netInitResNet, specSerialInit, hps]⟩

/-- Witness for C1: the `Identity` wrapper passes a concrete triple
through, while the `serial` wrapper raises on the concrete triple
returned by the underlying serial init of the MNIST network. -/
theorem C1_init_triples_witness :
    identityInitWrapper specIdentityLayer.init
        [.rng 0, .shape (.single [-1, 28, 28, 1])]
      = .ok (.tup [.shape (.single [-1, 28, 28, 1]), .tup [], .tree .unit])
    ∧ serialInitWrapper netInitMnist [.rng 0, .shape (.single [-1, 28, 28, 1])]
      = .error .valueError := by
  obtain ⟨p, st, hps⟩ :=
    initFull_exists 30 mnistNet 0 (.single [-1, 28, 28, 1]) (.single [-1, 10]) rfl
  have hser : netInitMnist [.rng 0, .shape (.single [-1, 28, 28, 1])]
      = .ok (.tup [.shape (.single [-1, 10]), .tree p, .tree st]) := by
    simp [netInitMnist, specSerialInit, hps]
  exact ⟨C1_init_triples_and_serial_decorator_bug.1 specIdentityLayer.init _ _ _ _ rfl,
         C1_init_triples_and_serial_decorator_bug.2.1 netInitMnist _ _ _ _ _ hser⟩

/-- C2: apply functions take (params, state, inputs) and return
(output, state) pairs.  The `Identity` debug wrapper does; the apply
wrapper built by `serial`'s debug decorator has signature
`(params, inputs, **kwargs)`, so the three-positional-argument call the
training scripts make raises `TypeError` at `INFO2`. -/
theorem C2_apply_pairs_and_serial_decorator_bug :
    (∀ (g : PyFun) (p st x res st2 : PyVal),
        g [p, st, x] = .ok (.tup [res, st2]) →
          identityApplyWrapper g [p, st, x] = .ok (.tup [res, st2]))
    ∧ (∀ (g : PyFun) (p st x : PyVal),
        serialApplyWrapper g [p, st, x] = .error .typeError) := by
  refine ⟨fun g p st x res st2 h => ?_, fun g p st x => rfl⟩
  simp [identityApplyWrapper, h]

/-- Witness for C2 at the concrete `Identity` layer and a concrete
three-positional-argument call. -/
theorem C2_apply_pairs_witness :
    identityApplyWrapper specIdentityLayer.apply
        [.tup [], .tree .unit, .tensor 7]
      = .ok (.tup [.tensor 7, .tree .unit])
    ∧ serialApplyWrapper specIdentityLayer.apply
        [.tree .unit, .tree .unit, .tensor 7]
      = .error .typeError :=
  ⟨C2_apply_pairs_and_serial_decorator_bug.1 specIdentityLayer.apply _ _ _ _ _ rfl,
   C2_apply_pairs_and_serial_decorator_bug.2 specIdentityLayer.apply _ _ _⟩

/-- C6: at every logging level and for every argument list, both
decorated constructors return exactly an (init, apply) pair: the wrapped
pair at `INFO2`, the inner constructor's pair otherwise. -/
theorem C6_constructors_return_init_apply_pairs
    (level : String) (inner : List PyVal → PyLayer) (args : List PyVal) :
    (∃ i a, identityDecorated level inner args = PyLayer.mk i a)
    ∧ identityDecorated level inner args
        = (if level = "INFO2"
           then PyLayer.mk (identityInitWrapper (inner args).init)
                           (identityApplyWrapper (inner args).apply)
           else inner args)
    ∧ (∃ i a, serialDecorated level inner args = PyLayer.mk i a)
    ∧ serialDecorated level inner args
        = (if level = "INFO2"
           then PyLayer.mk (serialInitWrapper (inner args).init)
                           (serialApplyWrapper (inner args).apply)
           else inner args) :=
  ⟨⟨(identityDecorated level inner args).init,
    (identityDecorated level inner args).apply, rfl⟩, rfl,
   ⟨(serialDecorated level inner args).init,
    (serialDecorated level inner args).apply, rfl⟩, rfl⟩

/-- C7: the decorators are value-transparent away from `INFO2`, and the
`Identity` wrappers are value-transparent at `INFO2`; but the `serial`
init wrapper at `INFO2` turns the underlying successful triple into a
`ValueError`, and the `serial` apply wrapper rejects the
(params, states, inputs) call, so `serial`'s decorator is not
value-transparent at `INFO2`. -/
theorem C7_decorator_transparency_and_serial_bug :
    (∀ (level : String) (inner : List PyVal → PyLayer) (args : List PyVal),
        level ≠ "INFO2" →
          identityDecorated level inner args = inner args
          ∧ serialDecorated level inner args = inner args)
    ∧ (∀ (f : PyFun) (rng s os st : PyVal),
        f [rng, s] = .ok (.tup [os, .tup [], st]) →
          identityInitWrapper f [rng, s] = f [rng, s])
    ∧ (∀ (g : PyFun) (p st x res st2 : PyVal),
        g [p, st, x] = .ok (.tup [res, st2]) →
          identityApplyWrapper g [p, st, x] = g [p, st, x])
    ∧ (∀ r : Nat,
        serialInitWrapper netInitMnist [.rng r, .shape (.single [-1, 28, 28, 1])]
            = .error .valueError
        ∧ netInitMnist [.rng r, .shape (.single [-1, 28, 28, 1])]
            ≠ .error .valueError)
    ∧ (∀ (g : PyFun) (p st x : PyVal),
        serialApplyWrapper g [p, st, x] = .error .typeError) := by
  refine ⟨fun level inner args hl => ?_, fun f rng s os st h => ?_,
          fun g p st x res st2 h => ?_, fun r => ?_, fun g p st x => rfl⟩
  · constructor
    · unfold identityDecorated
      rw [if_neg hl]
    · unfold serialDecorated
      rw [if_neg hl]
  · simp [identityInitWrapper, h]
  · simp [identityApplyWrapper, h]
  · obtain ⟨p, st, hps⟩ :=
      initFull_exists 30 mnistNet r (.single [-1, 28, 28, 1]) (.single [-1, 10]) rfl
    have hser : netInitMnist [.rng r, .shape (.single [-1, 28, 28, 1])]
        = .ok (.tup [.shape (.single [-1, 10]), .tree p, .tree st]) := by
      simp [netInitMnist, specSerialInit, hps]
    constructor
    · simp [serialInitWrapper, hser]
    · rw [hser]
      exact fun hcontra => by cases hcontra

/-- Witness for C7 at a concrete non-`INFO2` level and concrete
conventional layer values. -/
theorem C7_decorator_transparency_witness :
    (("INFO" : String) ≠ "INFO2"
      ∧ identityDecorated "INFO" (fun _ => specIdentityLayer) []
          = specIdentityLayer
      ∧ serialDecorated "INFO" (fun _ => specIdentityLayer) []
          = specIdentityLayer)
    ∧ identityInitWrapper specIdentityLayer.init
        [.rng 0, .shape (.single [2, 2])]
      = specIdentityLayer.init [.rng 0, .shape (.single [2, 2])]
    ∧ identityApplyWrapper specIdentityLayer.apply
        [.tup [], .tree .unit, .tensor 3]
      = specIdentityLayer.apply [.tup [], .tree .unit, .tensor 3] := by
  have hl : ("INFO" : String) ≠ "INFO2" := by decide
  have h := (C7_decorator_transparency_and_serial_bug.1 "INFO"
    (fun _ => specIdentityLayer) [] hl)
  exact ⟨⟨hl, h.1, h.2⟩,
    C7_decorator_transparency_and_serial_bug.2.1 specIdentityLayer.init _ _ _ _ rfl,
    C7_decorator_transparency_and_serial_bug.2.2.1 specIdentityLayer.apply _ _ _ _ _ rfl⟩

end Geero
